import Mathlib

/-!
# Verification of the furni-shop seed-data pipeline

Shallow embedding of the two seed scripts of the `furni-shop` repository:

* `seed/scripts/fetch-images.ts` — the image acquisition engine
  (`ImageFetcher`): category iteration with checkpoint-based skipping,
  provider fetch with retry/backoff, page-level provider fallback, and
  finalization (dedup + output files).
* `seed/scripts/generate-listings.ts` — the listing synthesizer
  (`ListingGenerator`): catalog loading, grouping by category, windowed
  image assignment, and per-listing field synthesis (price, tags, ...).

Randomness (the `faker` calls and `Math.random`) is modelled by explicit
draw streams passed as arguments; every draw that the code constrains to a
range is modelled by `fakerInt`, which realizes exactly the contract of
`faker.number.int({min, max})`.  File-system effects are modelled as
explicit write sequences; network fetches as outcome streams.
-/

namespace FurniShop

/-! ## Data model of `fetch-images.ts` -/

/-- The `source` union type `'unsplash' | 'pexels'` of `ImageMetadata`. -/
inductive Source where
  | unsplash
  | pexels
deriving DecidableEq, Repr

/-- The `ImageMetadata` interface of `fetch-images.ts` (lines 11–24). -/
structure ImageMetadata where
  id : String
  url : String
  thumbnailUrl : String
  category : String
  tags : List String
  width : Nat
  height : Nat
  color : String
  source : Source
  photographer : String
  photographerUrl : String
  license : String
deriving DecidableEq, Repr

/-- The fixed `FURNITURE_CATEGORIES` table (lines 33–44):
category name, search queries, target count. -/
def FURNITURE_CATEGORIES : List (String × List String × Nat) :=
  [ ("sofa", ["sofa", "couch", "sectional", "loveseat"], 150),
    ("dining-table", ["dining table", "kitchen table", "dining set"], 100),
    ("bed", ["bed", "bed frame", "bedroom furniture"], 100),
    ("wardrobe", ["wardrobe", "closet", "armoire"], 80),
    ("desk", ["desk", "office desk", "study table"], 80),
    ("outdoor", ["outdoor furniture", "patio set", "garden furniture"], 70),
    ("storage", ["bookshelf", "cabinet", "storage unit"], 70),
    ("chair", ["chair", "accent chair", "armchair"], 100),
    ("coffee-table", ["coffee table", "side table", "end table"], 80),
    ("entertainment", ["tv stand", "media console", "entertainment center"], 70) ]

/-- JavaScript `Array.prototype.findIndex`: index of the first element
satisfying `p`, or `-1` when there is none. -/
def jsFindIndex (p : α → Bool) (l : List α) : Int :=
  match l.findIdx? p with
  | some i => (i : Int)
  | none => -1

/-- Index of a category name in `FURNITURE_CATEGORIES`
(`FURNITURE_CATEGORIES.findIndex(c => c.category === x)`). -/
def categoryIndex (cat : String) : Int :=
  jsFindIndex (fun e => e.1 == cat) FURNITURE_CATEGORIES

/-- The resume-skip test of `fetchAll` (lines 206–210): a category is
skipped iff `progress.lastCategory` is non-empty and the index of
`lastCategory` is strictly greater than the index of the category. -/
def skipCategory (lastCategory category : String) : Bool :=
  lastCategory ≠ "" &&
    categoryIndex lastCategory > categoryIndex category

/-- The categories a rerun actually processes, in order, given the
checkpoint's `lastCategory`: the fixed list filtered by the skip test. -/
def resumedCategories (lastCategory : String) : List String :=
  (FURNITURE_CATEGORIES.filter (fun e => !skipCategory lastCategory e.1)).map (·.1)

/-! ## Finalization: dedup and output files (`finalize`, lines 290–357) -/

/-- One `map.set(k, v)` step of a JavaScript `Map` built by insertion:
an existing key keeps its (first-insertion) position but its value is
replaced; a new key is appended. -/
def jsMapSet (m : List (String × ImageMetadata)) (k : String) (v : ImageMetadata) :
    List (String × ImageMetadata) :=
  if m.any (fun p => p.1 == k) then
    m.map (fun p => if p.1 == k then (p.1, v) else p)
  else
    m ++ [(k, v)]

/-- `new Map(images.map(img => [img.id, img])).values()` (lines 294–296):
deduplication keyed on the raw `id` alone; on a collision the
last-inserted record wins, sitting at the position of the first. -/
def dedupById (images : List ImageMetadata) : List ImageMetadata :=
  (images.foldl (fun m img => jsMapSet m img.id img) []).map (·.2)

/-- Output paths of `fetch-images.ts` (lines 46–48), relative to the
`seed/images` directory.  `OUTPUT_FILE` is both the path the combined
catalog is written to and the path the unsplash subset is written to. -/
def OUTPUT_FILE : String := "unsplash_urls.json"

/-- The pexels per-source output path (line 48). -/
def PEXELS_OUTPUT : String := "pexels_urls.json"

/-- The sequence of `fs.writeFile` calls that `finalize` issues
(lines 322–341), in program order, with the image list each call writes:
first the combined deduplicated list to `OUTPUT_FILE`, then — when
non-empty — the unsplash subset to `OUTPUT_FILE` again, and the pexels
subset to `PEXELS_OUTPUT`. -/
def finalizeWrites (accumulated : List ImageMetadata) :
    List (String × List ImageMetadata) :=
  let uniqueImages := dedupById accumulated
  let unsplashImages := uniqueImages.filter (fun img => img.source = Source.unsplash)
  let pexelsImages := uniqueImages.filter (fun img => img.source = Source.pexels)
  [(OUTPUT_FILE, uniqueImages)]
    ++ (if unsplashImages.isEmpty then [] else [(OUTPUT_FILE, unsplashImages)])
    ++ (if pexelsImages.isEmpty then [] else [(PEXELS_OUTPUT, pexelsImages)])

/-- The content a path holds after a sequence of overwrites: the payload
of the last write to that path, if any. -/
def finalContent (writes : List (String × List ImageMetadata)) (p : String) :
    Option (List ImageMetadata) :=
  (writes.reverse.find? (fun w => w.1 == p)).map (·.2)

/-! ## Provider fetch with retry/backoff (`fetchUnsplash`, lines 94–144;
`fetchPexels` has the identical retry structure, lines 147–194) -/

/-- Outcome of one HTTP attempt: a successful response carrying mapped
records, or a thrown error that either is a 429 (`TooManyRequests`) or
is not. -/
inductive Outcome where
  | ok (imgs : List ImageMetadata)
  | err (is429 : Bool)
deriving DecidableEq, Repr

/-- The `while (retries < MAX_RETRIES)` loop of `fetchUnsplash`
(lines 99–141), with `MAX_RETRIES = 3`.  `outs n` is the outcome of the
`n`-th attempt.  Returns the mapped records and the list of sleep
durations performed, in order.  The catch block (lines 129–140)
increments `retries` on every failure, sleeps 60000 ms when the status
is 429, returns `[]` when a non-429 failure exhausts the retries, and
otherwise additionally sleeps `2000 × retries` ms.  Every iteration
increments `retries`, so the loop runs at most `3 - retries` more
times; `fuel` is that bound, kept in lockstep (`fuel = 3 - retries` at
every call), making the recursion structural. -/
def fetchLoop (outs : Nat → Outcome) : Nat → Nat → Nat →
    List ImageMetadata × List Nat
  | 0, _, _ => ([], [])
  | fuel + 1, attempt, retries =>
    if retries < 3 then
      match outs attempt with
      | .ok imgs => (imgs, [])
      | .err is429 =>
        let r := retries + 1
        if is429 then
          let rest := fetchLoop outs fuel (attempt + 1) r
          (rest.1, 60000 :: 2000 * r :: rest.2)
        else if 3 ≤ r then
          ([], [])
        else
          let rest := fetchLoop outs fuel (attempt + 1) r
          (rest.1, 2000 * r :: rest.2)
    else
      ([], [])

/-- `fetchUnsplash` (lines 94–144): returns `[]` immediately without any
request when no key is configured, otherwise runs the retry loop from
`retries = 0`. -/
def fetchUnsplashModel (hasKey : Bool) (outs : Nat → Outcome) :
    List ImageMetadata × List Nat :=
  if hasKey then fetchLoop outs 3 0 0 else ([], [])

/-! ## Page-level provider fallback (`fetchAll` inner loop, lines 225–272) -/

/-- State of the per-query page loop: `fetchedForQuery`, the global
`progress.completed` counter, and the page number. -/
structure PageState where
  fetchedForQuery : Nat
  completed : Nat
  page : Nat
deriving DecidableEq, Repr

/-- Result of one iteration of the `while (fetchedForQuery < perQuery &&
completed < targetTotal)` body: the successor state and whether each
provider was actually queried during the iteration. -/
structure PageIterResult where
  state : PageState
  unsplashCalled : Bool
  pexelsCalled : Bool
deriving DecidableEq, Repr

/-- One iteration of the page loop (lines 225–271).  `uCount` and
`pCount` are the numbers of records the providers would return for this
page.  Unsplash is queried whenever its key is configured (line 227);
its results are accumulated when non-empty (lines 230–244).  Pexels is
queried when `fetchedForQuery < perQuery`, its key is configured, and
`completed < targetTotal` — evaluated after the unsplash accumulation
(line 248) — and its results accumulated when non-empty.  Finally `page`
is incremented (line 268). -/
def pageIteration (hasUnsplashKey hasPexelsKey : Bool) (uCount pCount : Nat)
    (perQuery targetTotal : Nat) (s : PageState) : PageIterResult :=
  let uCalled := hasUnsplashKey
  let s1 : PageState :=
    if uCalled && uCount > 0 then
      { s with fetchedForQuery := s.fetchedForQuery + uCount,
               completed := s.completed + uCount }
    else s
  let pCalled := s1.fetchedForQuery < perQuery && hasPexelsKey
                   && s1.completed < targetTotal
  let s2 : PageState :=
    if pCalled && pCount > 0 then
      { s1 with fetchedForQuery := s1.fetchedForQuery + pCount,
                completed := s1.completed + pCount }
    else s1
  { state := { s2 with page := s2.page + 1 },
    unsplashCalled := uCalled,
    pexelsCalled := pCalled }

/-! ## Data model of `generate-listings.ts` -/

/-- The `ImageData` interface of `generate-listings.ts` (lines 8–18). -/
structure ImageData where
  id : String
  url : String
  thumbnailUrl : String
  category : String
  tags : List String
  color : String
  source : String
  photographer : String
  photographerUrl : String
deriving DecidableEq, Repr

/-- The `condition` union type `'new' | 'excellent' | 'good' | 'fair'`. -/
inductive Condition where
  | new
  | excellent
  | good
  | fair
deriving DecidableEq, Repr

/-- The string value of a condition, as it appears in the `tags` array. -/
def Condition.str : Condition → String
  | .new => "new"
  | .excellent => "excellent"
  | .good => "good"
  | .fair => "fair"

/-- The `conditionMultipliers` table of `generateListing` (line 287):
`{ new: 1, excellent: 0.85, good: 0.65, fair: 0.45 }`. -/
def conditionMultiplier : Condition → ℚ
  | .new => 1
  | .excellent => 85 / 100
  | .good => 65 / 100
  | .fair => 45 / 100

/-- The `PRICE_RANGES` table (lines 53–64): category ↦ (min, max) in NGN. -/
def PRICE_RANGES : List (String × Nat × Nat) :=
  [ ("sofa", 45000, 350000),
    ("dining-table", 55000, 280000),
    ("bed", 38000, 185000),
    ("wardrobe", 52000, 220000),
    ("desk", 28000, 125000),
    ("outdoor", 65000, 250000),
    ("storage", 22000, 95000),
    ("chair", 15000, 85000),
    ("coffee-table", 18000, 78000),
    ("entertainment", 25000, 110000) ]

/-- `PRICE_RANGES[category]` lookup. -/
def priceRangeFor (category : String) : Option (Nat × Nat) :=
  (PRICE_RANGES.find? (fun e => e.1 == category)).map (·.2)

/-- JavaScript `Math.round`: round half towards positive infinity. -/
def jsRound (q : ℚ) : ℤ := ⌊q + 1 / 2⌋

/-- `faker.number.int({min, max})` with `min ≤ max`: a draw `d` realized
as a value in `[lo, hi]`.  Any stream of in-range values is obtained
from some stream of draws, so quantifying over draws quantifies over all
behaviors of the random source. -/
def fakerInt (lo hi d : Nat) : Nat := lo + d % (hi - lo + 1)

/-- `Math.round(basePrice × multiplier / 1000) × 1000` (line 289).
Exact rational arithmetic agrees with the IEEE-754 evaluation of the
source here: the quantity `basePrice × m / 1000` with `basePrice ≤
350000` and `m ∈ {1, 0.85, 0.65, 0.45}` is never closer than `1/20000`
to a rounding boundary except when exactly on it, and the double
approximations of 0.85, 0.65, 0.45 all lie above the exact value, so
`Math.round` decides every case the way exact half-up rounding does. -/
def priceFrom (basePrice : Nat) (condition : Condition) : ℤ :=
  jsRound ((basePrice : ℚ) * conditionMultiplier condition / 1000) * 1000

/-- `round(q / 1000) × 1000`: the claim's "rounded to the nearest 1000". -/
def roundTo1000 (q : ℚ) : ℤ := jsRound (q / 1000) * 1000

/-- JavaScript `new Set(l)` iterated back into an array
(`[...new Set(l)]`): keeps the first occurrence of each element, in
insertion order. -/
def jsSetDedup (l : List String) : List String :=
  l.foldl (fun acc s => if s ∈ acc then acc else acc ++ [s]) []

/-- The random draws one `generateListing` call consumes, modelled
explicitly: the weighted condition draw (line 265), the 1–2 element
materials draw (line 272), the `faker.number.int(priceRange)` draw
(line 288), and the draws for title, slug suffix, city, stock, featured
and creation date, which no claim constrains beyond their presence. -/
structure ListingDraws where
  condition : Condition
  materials : List String
  priceDraw : Nat
  title : String
  slugSuffix : String
  city : String
  stock : Nat
  featured : Bool
  createdAt : String
deriving Repr

/-- The fields of a synthesized `Listing` involved in the claims
(interface lines 20–43).  The prose fields (`title`, `slug`,
`description`, `dimensions`, ...) are carried through from the draws and
are not constrained by any claim. -/
structure Listing where
  title : String
  price_ngn : ℤ
  city : String
  condition : Condition
  materials : List String
  images : List String
  category : String
  tags : List String
  stock : Nat
  featured : Bool
deriving Repr

/-- A placeholder record standing for the JavaScript `undefined` that
`images[0]` yields on an empty array; `generateAllListings` only ever
passes non-empty windows (see the safety claim). -/
def undefinedImage : ImageData :=
  { id := "", url := "", thumbnailUrl := "", category := "", tags := [],
    color := "", source := "", photographer := "", photographerUrl := "" }

/-- `generateListing(images)` (lines 263–313), restricted to the fields
the claims constrain.  `category = images[0].category` (line 264);
`priceRange = PRICE_RANGES[category] || {min: 20000, max: 150000}`
(line 284); `basePrice = faker.number.int(priceRange)` (line 288);
`price = Math.round(basePrice × multiplier / 1000) × 1000` (line 289);
`images = images.map(img => img.url)` (line 306); `tags = [...new
Set([...images[0].tags, category, ...materials, condition])]`
(line 308). -/
def generateListing (images : List ImageData) (d : ListingDraws) : Listing :=
  let first := images.headD undefinedImage
  let category := first.category
  let priceRange := (priceRangeFor category).getD (20000, 150000)
  let basePrice := fakerInt priceRange.1 priceRange.2 d.priceDraw
  let price := priceFrom basePrice d.condition
  { title := d.title,
    price_ngn := price,
    city := d.city,
    condition := d.condition,
    materials := d.materials,
    images := images.map (·.url),
    category := category,
    tags := jsSetDedup (first.tags ++ [category] ++ d.materials ++ [d.condition.str]),
    stock := d.stock,
    featured := d.featured }

/-! ## Grouping and windowing (`generateAllListings`, lines 316–346) -/

/-- One step of the `images.reduce` grouping (lines 320–324), with
JavaScript object semantics: a present key keeps its position and gets
the image appended to its list; an absent key is appended at the end. -/
def addToGroup (acc : List (String × List ImageData)) (img : ImageData) :
    List (String × List ImageData) :=
  if acc.any (fun p => p.1 == img.category) then
    acc.map (fun p => if p.1 == img.category then (p.1, p.2 ++ [img]) else p)
  else
    acc ++ [(img.category, [img])]

/-- `imagesByCategory`: group the catalog by `category`, preserving
catalog order inside each group and first-appearance order of the
groups. -/
def groupByCategory (images : List ImageData) : List (String × List ImageData) :=
  images.foldl addToGroup []

/-- The window-slicing loop of `generateAllListings` (lines 330–342),
with explicit fuel: every slice consumes at least one image (the drawn
size is at least 1), so `l.length` bounds the number of iterations and
the recursion is structural in the fuel.  While images remain, draw
`imagesPerListing` uniformly from `[1, min(5, remaining)]` and slice
off that many images as one window.  `ds` is the stream of raw draws,
one per window. -/
def chunkWindowsAux (ds : List Nat) : Nat → List ImageData →
    List (List ImageData)
  | _, [] => []
  | 0, _ :: _ => []
  | fuel + 1, x :: xs =>
    let k := fakerInt 1 (min 5 (xs.length + 1)) (ds.headD 0)
    (x :: xs).take k :: chunkWindowsAux ds.tail fuel ((x :: xs).drop k)

/-- The window-slicing loop, started with enough fuel to run to
exhaustion of the group. -/
def chunkWindows (ds : List Nat) (l : List ImageData) : List (List ImageData) :=
  chunkWindowsAux ds l.length l

/-- The listings generated for one category group: one `generateListing`
call per window, each consuming its own draws (`rcs i` for the `i`-th
window). -/
def listingsForGroup (ds : List Nat) (rcs : Nat → ListingDraws)
    (imgs : List ImageData) : List Listing :=
  (chunkWindows ds imgs).enum.map (fun p => generateListing p.2 (rcs p.1))

/-- `generateAllListings` (lines 316–346): group by category, then
window and synthesize each group, concatenating the per-category listing
lists in group order.  The draw streams are indexed per category. -/
def generateAllListings (ds : String → List Nat)
    (rcs : String → Nat → ListingDraws) (images : List ImageData) :
    List Listing :=
  (groupByCategory images).flatMap
    (fun p => listingsForGroup (ds p.1) (rcs p.1) p.2)

/-- `main` of `generate-listings.ts` (lines 394–410) composed with
`loadImages` (lines 155–161): the catalog read either throws
(unreadable file or invalid JSON), which the catch turns into exit
code 1, or yields a parsed object whose `images` field — `undefined`
when absent — is defaulted with `parsed.images || []`; generation then
runs to completion and the process exits 0.  Returns the exit code and
the generated listings. -/
def mainModel (readResult : Except String (Option (List ImageData)))
    (ds : String → List Nat) (rcs : String → Nat → ListingDraws) :
    Nat × List Listing :=
  match readResult with
  | .error _ => (1, [])
  | .ok parsed => (0, generateAllListings ds rcs (parsed.getD []))

/-! ## Sample records used as concrete inputs in counterexamples and
witnesses -/

/-- The category names in their fixed order. -/
def categoryNames : List String := FURNITURE_CATEGORIES.map (·.1)

/-- A sample unsplash record. -/
def sampleUnsplash : ImageMetadata :=
  { id := "u-1", url := "https://img/u-1", thumbnailUrl := "https://img/u-1-t",
    category := "sofa", tags := ["sofa"], width := 1080, height := 720,
    color := "#aaaaaa", source := .unsplash, photographer := "A",
    photographerUrl := "https://u/a",
    license := "Unsplash License (free to use, attribution appreciated)" }

/-- A sample pexels record with an id distinct from `sampleUnsplash`. -/
def samplePexels : ImageMetadata :=
  { sampleUnsplash with
    id := "p-7", url := "https://img/p-7", source := .pexels,
    license := "Pexels License (free to use, attribution appreciated)" }

/-- A pexels record sharing its `id` with `sampleUnsplash` while differing
in `source` (and `url`): the cross-provider collision scenario. -/
def collidingPexels : ImageMetadata :=
  { sampleUnsplash with
    url := "https://img/p-clash", source := .pexels,
    license := "Pexels License (free to use, attribution appreciated)" }

/-- A sample catalog image in category `sofa` with tag list `["a"]`. -/
def sampleImageA : ImageData :=
  { id := "a", url := "https://img/a", thumbnailUrl := "https://img/a-t",
    category := "sofa", tags := ["a"], color := "#111111",
    source := "unsplash", photographer := "A", photographerUrl := "https://u/a" }

/-- A second sofa image whose tag list `["b"]` is disjoint from
`sampleImageA`'s. -/
def sampleImageB : ImageData :=
  { sampleImageA with id := "b", url := "https://img/b", tags := ["b"] }

/-- A fixed assignment for the random draws of one `generateListing`
call. -/
def sampleDraws : ListingDraws :=
  { condition := .new, materials := ["wood"], priceDraw := 0,
    title := "Modern wood Sofa", slugSuffix := "ab12cd", city := "Lagos",
    stock := 3, featured := false, createdAt := "2025-06-01T00:00:00.000Z" }

/-! ## C1 — checkpoint resumption -/

/-- **C1, counterexample.**  The claim says a checkpoint whose
`lastCategory` equals a category `C` makes the rerun skip `C` itself and
resume at the next category.  With `lastCategory = "sofa"` (the first
category), the skip test of `fetchAll` (lines 206–210) evaluates to
`false` for `"sofa"` itself — the strict `>` comparison of indices never
skips the checkpointed category — so the rerun re-processes `"sofa"`,
re-issuing all of its queries. -/
theorem skip_test_keeps_lastCategory :
    skipCategory "sofa" "sofa" = false ∧
      "sofa" ∈ resumedCategories "sofa" := by
  decide

/-- **C1, amended.**  Restarting with checkpoint `lastCategory = last`
(for any category `last` of the fixed order) processes exactly the
suffix of the category order starting **at** `last`: the categories
strictly before `last` are skipped, and `last` itself is re-processed
(its queries are re-issued, with downstream dedup relied on to drop the
repeats). -/
theorem resume_processes_suffix_from_lastCategory
    (last : String) (h : last ∈ categoryNames) :
    resumedCategories last = categoryNames.drop (categoryIndex last).toNat := by
  fin_cases h <;> decide

/-- Witness for `resume_processes_suffix_from_lastCategory` at
`last = "sofa"`. -/
theorem resume_processes_suffix_witness :
    resumedCategories "sofa" = categoryNames.drop (categoryIndex "sofa").toNat :=
  resume_processes_suffix_from_lastCategory "sofa" (by decide)

/-! ## C3 — finalization output files -/

/-- **C3, evaluation at the failing input.**  With one unsplash image
and one pexels image accumulated, `finalize` (lines 322–341) first
writes the combined deduplicated list `[sampleUnsplash, samplePexels]`
to `OUTPUT_FILE`, then overwrites that same path with the unsplash-only
subset (line 328 reuses `OUTPUT_FILE` instead of a dedicated unsplash
path), so the file ends up holding only `[sampleUnsplash]`: the
combined catalog is replaced by a per-source file and the pexels image
is absent from every copy of the main output, contradicting the claim
(and the log message on line 324). -/
theorem finalize_overwrites_combined_output :
    dedupById [sampleUnsplash, samplePexels] = [sampleUnsplash, samplePexels] ∧
    finalContent (finalizeWrites [sampleUnsplash, samplePexels]) OUTPUT_FILE =
      some [sampleUnsplash] ∧
    finalContent (finalizeWrites [sampleUnsplash, samplePexels]) PEXELS_OUTPUT =
      some [samplePexels] ∧
    finalContent (finalizeWrites [sampleUnsplash, samplePexels]) OUTPUT_FILE ≠
      some (dedupById [sampleUnsplash, samplePexels]) := by
  decide

/-! ## C4 — provider fallback condition -/

/-- **C4, counterexample.**  The claim says the secondary provider is
queried for a page only when the primary yielded zero results or is
unconfigured.  Take both keys configured, the primary returning 30
records for the page, per-query quota 38 and target 800, starting from
a fresh query state: the primary's page is non-empty, yet the pexels
guard (line 248) — which only checks the quota, the key and the global
target — still fires before the page counter advances. -/
theorem pexels_called_despite_nonempty_unsplash :
    (pageIteration true true 30 0 38 800 ⟨0, 0, 1⟩).unsplashCalled = true ∧
    (30 : Nat) ≠ 0 ∧
    (pageIteration true true 30 0 38 800 ⟨0, 0, 1⟩).pexelsCalled = true ∧
    (pageIteration true true 30 0 38 800 ⟨0, 0, 1⟩).state.page = 2 := by
  decide

/-- **C4, amended.**  The secondary provider is queried for the page
whenever the per-query quota is still unmet after the primary's results
are accumulated, the secondary key is configured, and the global target
is unreached — regardless of whether the primary returned results; it
is skipped when the primary (configured, non-empty) already filled the
per-query quota. -/
theorem pexels_fallback_is_quota_driven
    (hasU hasP : Bool) (uCount pCount perQuery targetTotal : Nat)
    (s : PageState) :
    (hasP = true → s.fetchedForQuery + uCount < perQuery →
      s.completed + uCount < targetTotal →
      (pageIteration hasU hasP uCount pCount perQuery targetTotal s).pexelsCalled
        = true) ∧
    (hasU = true → 0 < uCount → perQuery ≤ s.fetchedForQuery + uCount →
      (pageIteration hasU hasP uCount pCount perQuery targetTotal s).pexelsCalled
        = false) := by
  constructor
  · intro hp h1 h2
    simp only [pageIteration, hp]
    by_cases hu : (hasU && decide (uCount > 0)) = true <;>
      simp [hu] <;> omega
  · intro hu huc h1
    simp only [pageIteration, hu]
    simp [huc]
    omega

/-- Witness for `pexels_fallback_is_quota_driven`: both directions at
concrete inputs (quota unmet after a 30-record primary page; quota met
exactly by a 30-record primary page). -/
theorem pexels_fallback_witness :
    (pageIteration true true 30 0 38 800 ⟨0, 0, 1⟩).pexelsCalled = true ∧
    (pageIteration true true 30 0 30 800 ⟨0, 0, 1⟩).pexelsCalled = false :=
  ⟨(pexels_fallback_is_quota_driven true true 30 0 38 800 ⟨0, 0, 1⟩).1
      rfl (by decide) (by decide),
   (pexels_fallback_is_quota_driven true true 30 0 30 800 ⟨0, 0, 1⟩).2
      rfl (by decide) (by decide)⟩

/-! ## C5 — rate-limit handling in the retry loop -/

/-- **C5, counterexample.**  The claim says a 429 response triggers a
fixed 60-second pause and a retry without consuming a retry attempt or
incurring the exponential backoff.  Run the fetch against a provider
whose first attempt returns 429 and whose second attempt succeeds: the
sleep trace is `[60000, 2000]`, not the `[60000]` the claim predicts —
the catch block (lines 129–140) increments `retries` on every failure,
429 included, and then also performs the `2000 × retries` backoff
sleep. -/
theorem rate_limit_consumes_retry_counterexample :
    fetchUnsplashModel true
        (fun n => if n = 0 then .err true else .ok [sampleUnsplash]) =
      ([sampleUnsplash], [60000, 2000]) ∧
    fetchUnsplashModel true
        (fun n => if n = 0 then .err true else .ok [sampleUnsplash]) ≠
      ([sampleUnsplash], [60000]) := by
  decide

/-- **C5, amended.**  Every failure — 429 included — increments the
retry counter toward the ceiling of 3 and incurs the exponential
`2s × attemptNumber` backoff; a 429 additionally sleeps the fixed 60 s
first.  Concretely: a single 429 followed by a success sleeps
`[60000, 2000]`; an unbroken stream of 429 responses exhausts the three
attempts — sleeping `60 s` plus `2 s, 4 s, 6 s` of backoff — and the
fetch then gives up with an empty result. -/
theorem rate_limit_retry_behaviour :
    (∀ (outs : Nat → Outcome) (imgs : List ImageMetadata),
      outs 0 = .err true → outs 1 = .ok imgs →
      fetchUnsplashModel true outs = (imgs, [60000, 2000])) ∧
    (∀ outs : Nat → Outcome, (∀ n, outs n = .err true) →
      fetchUnsplashModel true outs =
        ([], [60000, 2000, 60000, 4000, 60000, 6000])) := by
  constructor
  · intro outs imgs h0 h1
    simp [fetchUnsplashModel, fetchLoop, h0, h1]
  · intro outs h
    simp [fetchUnsplashModel, fetchLoop, h 0, h 1, h 2]

/-- Witness for `rate_limit_retry_behaviour`: both scenarios at concrete
outcome streams. -/
theorem rate_limit_retry_witness :
    fetchUnsplashModel true
        (fun n => if n = 0 then .err true else .ok [sampleUnsplash]) =
      ([sampleUnsplash], [60000, 2000]) ∧
    fetchUnsplashModel true (fun _ => .err true) =
      ([], [60000, 2000, 60000, 4000, 60000, 6000]) :=
  ⟨rate_limit_retry_behaviour.1 _ [sampleUnsplash] rfl rfl,
   rate_limit_retry_behaviour.2 _ (fun _ => rfl)⟩

/-! ## C6 — empty or `images`-less catalog during synthesis -/

/-- **C6, counterexample.**  The claim says a catalog that lacks the
`images` field makes the synthesis job abort with a non-zero exit
status.  `loadImages` (line 159) instead defaults the missing field
with `parsed.images || []`, generation runs on the empty list without
throwing, and `main` reaches `process.exit(0)`: the job reports
success (exit code 0) and zero listings. -/
theorem missing_images_field_exits_zero :
    mainModel (.ok none) (fun _ => []) (fun _ _ => sampleDraws) = (0, []) :=
  rfl

/-- **C6, amended.**  Only an unreadable or JSON-malformed catalog file
aborts the synthesis job with exit code 1 (through the catch in `main`,
lines 404–407); a catalog whose `images` field is missing, and equally
one whose `images` list is empty, is tolerated by the
`parsed.images || []` default: the job generates zero listings and
exits 0. -/
theorem catalog_failure_semantics (e : String) (ds : String → List Nat)
    (rcs : String → Nat → ListingDraws) :
    mainModel (.error e) ds rcs = (1, []) ∧
    mainModel (.ok none) ds rcs = (0, []) ∧
    mainModel (.ok (some [])) ds rcs = (0, []) :=
  ⟨rfl, rfl, rfl⟩

/-! ## C2 — deduplication key -/

theorem map_fst_jsMapSet_update (m : List (String × ImageMetadata))
    (k : String) (v : ImageMetadata) :
    (m.map (fun p => if p.1 == k then (p.1, v) else p)).map (·.1) =
      m.map (·.1) := by
  induction m with
  | nil => rfl
  | cons a t ih =>
    have hhead : (if (a.1 == k) = true then (a.1, v) else a).1 = a.1 := by
      split <;> rfl
    simp only [List.map_cons, ih, hhead]

theorem jsMapSet_keys (m : List (String × ImageMetadata)) (k : String)
    (v : ImageMetadata) :
    (jsMapSet m k v).map (·.1) =
      if m.any (fun p => p.1 == k) then m.map (·.1) else m.map (·.1) ++ [k] := by
  unfold jsMapSet
  by_cases h : m.any (fun p => p.1 == k) = true
  · rw [if_pos h, if_pos h, map_fst_jsMapSet_update]
  · rw [if_neg h, if_neg h, List.map_append]
    rfl

theorem jsMapSet_pairs (m : List (String × ImageMetadata)) (k : String)
    (v : ImageMetadata) (hv : v.id = k) (h : ∀ p ∈ m, p.1 = p.2.id) :
    ∀ p ∈ jsMapSet m k v, p.1 = p.2.id := by
  unfold jsMapSet
  split
  · intro p hp
    obtain ⟨q, hq, rfl⟩ := List.mem_map.mp hp
    by_cases hqk : q.1 == k
    · simp only [hqk, if_pos]
      simpa [hv] using (beq_iff_eq.mp hqk)
    · simp only [hqk, if_neg, Bool.false_eq_true, not_false_iff]
      exact h q hq
  · intro p hp
    rcases List.mem_append.mp hp with h1 | h2
    · exact h p h1
    · rw [List.mem_singleton.mp h2]
      exact hv.symm

theorem jsMapSet_keys_nodup (m : List (String × ImageMetadata)) (k : String)
    (v : ImageMetadata) (h : (m.map (·.1)).Nodup) :
    ((jsMapSet m k v).map (·.1)).Nodup := by
  rw [jsMapSet_keys]
  split
  · exact h
  · next hfalse =>
    have hk : k ∉ m.map (·.1) := by
      intro hmem
      obtain ⟨p, hp, hpk⟩ := List.mem_map.mp hmem
      exact hfalse (List.any_eq_true.mpr ⟨p, hp, beq_iff_eq.mpr hpk⟩)
    simp [List.nodup_append, h, hk]

theorem jsMapSet_mem_keys (m : List (String × ImageMetadata)) (k : String)
    (v : ImageMetadata) (i : String) :
    i ∈ (jsMapSet m k v).map (·.1) ↔ i ∈ m.map (·.1) ∨ i = k := by
  rw [jsMapSet_keys]
  split
  · next htrue =>
    obtain ⟨p, hp, hpk⟩ := List.any_eq_true.mp htrue
    have hk : k ∈ m.map (·.1) := List.mem_map.mpr ⟨p, hp, beq_iff_eq.mp hpk⟩
    constructor
    · exact Or.inl
    · rintro (hmem | rfl)
      · exact hmem
      · exact hk
  · simp

theorem dedupFold_invariant (l : List ImageMetadata) :
    ∀ acc : List (String × ImageMetadata),
      (∀ p ∈ acc, p.1 = p.2.id) → (acc.map (·.1)).Nodup →
      (∀ p ∈ l.foldl (fun m img => jsMapSet m img.id img) acc, p.1 = p.2.id) ∧
      ((l.foldl (fun m img => jsMapSet m img.id img) acc).map (·.1)).Nodup ∧
      (∀ i, i ∈ (l.foldl (fun m img => jsMapSet m img.id img) acc).map (·.1) ↔
        i ∈ acc.map (·.1) ∨ i ∈ l.map (·.id)) := by
  induction l with
  | nil =>
    intro acc h1 h2
    exact ⟨h1, h2, fun i => by simp⟩
  | cons x xs ih =>
    intro acc h1 h2
    simp only [List.foldl_cons]
    obtain ⟨a, b, c⟩ := ih (jsMapSet acc x.id x)
      (jsMapSet_pairs acc x.id x rfl h1) (jsMapSet_keys_nodup acc x.id x h2)
    refine ⟨a, b, fun i => ?_⟩
    rw [c i, jsMapSet_mem_keys]
    simp only [List.map_cons, List.mem_cons]
    tauto

/-- **C2, counterexample.**  The claim says two records with the same
`id` but different `source` are never merged and both survive
deduplication.  `finalize` dedups with `new Map(images.map(img =>
[img.id, img]))` (lines 294–296) — keyed on the raw `id` — so an
unsplash record and a pexels record sharing an id collapse to a single
entry (the later one), and the unsplash record is dropped from the
output. -/
theorem cross_source_collision_is_merged :
    sampleUnsplash.id = collidingPexels.id ∧
    sampleUnsplash.source ≠ collidingPexels.source ∧
    dedupById [sampleUnsplash, collidingPexels] = [collidingPexels] ∧
    sampleUnsplash ∉ dedupById [sampleUnsplash, collidingPexels] := by
  decide

/-- **C2, amended.**  Deduplication is keyed on the raw `id` alone: the
finalized list carries each distinct input `id` exactly once —
whatever the `source` values — so records from different providers
sharing an id are merged (last write wins), never kept side by side. -/
theorem dedup_keys_on_raw_id (l : List ImageMetadata) :
    ((dedupById l).map (·.id)).Nodup ∧
    ∀ i : String, (i ∈ (dedupById l).map (·.id) ↔ i ∈ l.map (·.id)) := by
  have main := dedupFold_invariant l [] (by simp) (by simp)
  have hmap : (dedupById l).map (·.id) =
      (l.foldl (fun m img => jsMapSet m img.id img) []).map (·.1) := by
    unfold dedupById
    rw [List.map_map]
    exact List.map_congr_left (fun p hp => (main.1 p hp).symm)
  rw [hmap]
  refine ⟨main.2.1, fun i => ?_⟩
  rw [main.2.2 i]
  simp

/-! ## C7 — listing tags -/

theorem jsSetDedup_fold_mem (l : List String) :
    ∀ (acc : List String) (s : String),
      s ∈ l.foldl (fun acc s => if s ∈ acc then acc else acc ++ [s]) acc ↔
        s ∈ acc ∨ s ∈ l := by
  induction l with
  | nil => simp
  | cons x xs ih =>
    intro acc s
    simp only [List.foldl_cons]
    by_cases hx : x ∈ acc
    · rw [if_pos hx, ih]
      simp only [List.mem_cons]
      constructor
      · tauto
      · rintro (h | rfl | h)
        · exact Or.inl h
        · exact Or.inl hx
        · exact Or.inr h
    · rw [if_neg hx, ih]
      simp only [List.mem_append, List.mem_singleton, List.mem_cons]
      tauto

theorem jsSetDedup_fold_nodup (l : List String) :
    ∀ acc : List String, acc.Nodup →
      (l.foldl (fun acc s => if s ∈ acc then acc else acc ++ [s]) acc).Nodup := by
  induction l with
  | nil => exact fun acc h => h
  | cons x xs ih =>
    intro acc h
    simp only [List.foldl_cons]
    by_cases hx : x ∈ acc
    · rw [if_pos hx]
      exact ih acc h
    · rw [if_neg hx]
      exact ih (acc ++ [x]) (by simp [List.nodup_append, h, hx])

theorem mem_jsSetDedup (l : List String) (s : String) :
    s ∈ jsSetDedup l ↔ s ∈ l := by
  unfold jsSetDedup
  rw [jsSetDedup_fold_mem]
  simp

theorem jsSetDedup_nodup (l : List String) : (jsSetDedup l).Nodup :=
  jsSetDedup_fold_nodup l [] (by simp)

/-- **C7, counterexample.**  The claim says a listing's tags are the
deduplicated union of the tags of **all** its images (plus category,
materials, condition).  Give a listing the two-image window
`[sampleImageA, sampleImageB]` with tag lists `["a"]` and `["b"]`:
line 308 builds the tag set from `images[0].tags` only, so the second
image's tag `"b"` is absent from the result. -/
theorem second_image_tags_dropped :
    "b" ∈ sampleImageB.tags ∧
    (generateListing [sampleImageA, sampleImageB] sampleDraws).tags =
      ["a", "sofa", "wood", "new"] ∧
    "b" ∉ (generateListing [sampleImageA, sampleImageB] sampleDraws).tags := by
  decide

/-- **C7, amended.**  A listing's tags are the deduplicated union of
the **first** image's tags, the listing's category, its materials and
its condition: a string is a tag of the listing exactly when it is one
of those, and the tag list holds no duplicates.  Tags of the second and
later images of the window do not contribute. -/
theorem listing_tags_from_first_image (images : List ImageData)
    (d : ListingDraws) (t : String) :
    (generateListing images d).tags.Nodup ∧
    (t ∈ (generateListing images d).tags ↔
      t ∈ (images.headD undefinedImage).tags ∨
      t = (generateListing images d).category ∨
      t ∈ d.materials ∨ t = d.condition.str) := by
  have hcat : (generateListing images d).category =
      (images.headD undefinedImage).category := rfl
  have htags : (generateListing images d).tags =
      jsSetDedup ((images.headD undefinedImage).tags ++
        [(images.headD undefinedImage).category] ++ d.materials ++
        [d.condition.str]) := rfl
  constructor
  · rw [htags]
    exact jsSetDedup_nodup _
  · rw [htags, hcat, mem_jsSetDedup]
    simp only [List.mem_append, List.mem_singleton]
    tauto

/-! ## C8 — price bounds -/

theorem priceRange_table_bounds (cat : String) (mn mx : Nat)
    (h : priceRangeFor cat = some (mn, mx)) : 15000 ≤ mn ∧ mn ≤ mx := by
  unfold priceRangeFor at h
  cases hf : PRICE_RANGES.find? (fun e => e.1 == cat) with
  | none => rw [hf] at h; exact absurd h (by simp)
  | some e =>
    rw [hf] at h
    simp only [Option.map_some'] at h
    have hm := List.mem_of_find?_eq_some hf
    fin_cases hm <;> simp_all [Prod.ext_iff] <;> omega

theorem jsRound_mono {q r : ℚ} (h : q ≤ r) : jsRound q ≤ jsRound r :=
  Int.floor_le_floor (by linarith)

theorem roundTo1000_mono {q r : ℚ} (h : q ≤ r) :
    roundTo1000 q ≤ roundTo1000 r := by
  unfold roundTo1000
  have hdiv : q / 1000 ≤ r / 1000 := by linarith
  exact mul_le_mul_of_nonneg_right (jsRound_mono hdiv) (by norm_num)

theorem conditionMultiplier_lb (c : Condition) :
    (45 : ℚ) / 100 ≤ conditionMultiplier c := by
  cases c <;> norm_num [conditionMultiplier]

theorem conditionMultiplier_ub (c : Condition) : conditionMultiplier c ≤ 1 := by
  cases c <;> norm_num [conditionMultiplier]

theorem fakerInt_bounds (lo hi d : Nat) (h : lo ≤ hi) :
    lo ≤ fakerInt lo hi d ∧ fakerInt lo hi d ≤ hi := by
  unfold fakerInt
  have hlt : d % (hi - lo + 1) < hi - lo + 1 := Nat.mod_lt _ (by omega)
  omega

theorem roundTo1000_pos {q : ℚ} (h : 6750 ≤ q) : 0 < roundTo1000 q := by
  unfold roundTo1000 jsRound
  have h7 : (7 : ℤ) ≤ ⌊q / 1000 + 1 / 2⌋ := by
    apply Int.le_floor.mpr
    push_cast
    linarith
  have : (7 : ℤ) * 1000 ≤ ⌊q / 1000 + 1 / 2⌋ * 1000 :=
    mul_le_mul_of_nonneg_right h7 (by norm_num)
  linarith

/-- **C8.**  For every listing whose (first image's) category has an
entry `(mn, mx)` in `PRICE_RANGES`, the synthesized price is positive,
divisible by 1000, and lies in `[round1000(mn × 0.45), round1000(mx)]`;
the condition multipliers are `new = 1`, `excellent = 0.85`,
`good = 0.65`, `fair = 0.45`. -/
theorem listing_price_bounds (images : List ImageData) (d : ListingDraws)
    (mn mx : Nat)
    (h : priceRangeFor (images.headD undefinedImage).category = some (mn, mx)) :
    0 < (generateListing images d).price_ngn ∧
    (1000 : ℤ) ∣ (generateListing images d).price_ngn ∧
    roundTo1000 ((mn : ℚ) * (45 / 100)) ≤ (generateListing images d).price_ngn ∧
    (generateListing images d).price_ngn ≤ roundTo1000 (mx : ℚ) ∧
    conditionMultiplier .new = 1 ∧ conditionMultiplier .excellent = 85 / 100 ∧
    conditionMultiplier .good = 65 / 100 ∧
    conditionMultiplier .fair = 45 / 100 := by
  obtain ⟨h15, hmnmx⟩ := priceRange_table_bounds _ mn mx h
  have hprice : (generateListing images d).price_ngn =
      priceFrom
        (fakerInt
          ((priceRangeFor (images.headD undefinedImage).category).getD
            (20000, 150000)).1
          ((priceRangeFor (images.headD undefinedImage).category).getD
            (20000, 150000)).2
          d.priceDraw)
        d.condition := rfl
  rw [h] at hprice
  simp only [Option.getD_some] at hprice
  obtain ⟨hb1, hb2⟩ := fakerInt_bounds mn mx d.priceDraw hmnmx
  have hbq1 : (mn : ℚ) ≤ (fakerInt mn mx d.priceDraw : ℚ) := by exact_mod_cast hb1
  have hbq2 : (fakerInt mn mx d.priceDraw : ℚ) ≤ (mx : ℚ) := by exact_mod_cast hb2
  have hlb : roundTo1000 ((mn : ℚ) * (45 / 100)) ≤
      (generateListing images d).price_ngn := by
    rw [hprice]
    apply roundTo1000_mono
    exact mul_le_mul hbq1 (conditionMultiplier_lb d.condition) (by norm_num)
      (by positivity)
  have hub : (generateListing images d).price_ngn ≤ roundTo1000 (mx : ℚ) := by
    rw [hprice]
    apply roundTo1000_mono
    have hb0 : (0 : ℚ) ≤ (fakerInt mn mx d.priceDraw : ℚ) := by positivity
    nlinarith [conditionMultiplier_ub d.condition]
  have hpos : 0 < roundTo1000 ((mn : ℚ) * (45 / 100)) := by
    apply roundTo1000_pos
    have : (15000 : ℚ) ≤ (mn : ℚ) := by exact_mod_cast h15
    linarith
  have hdvd : (1000 : ℤ) ∣ (generateListing images d).price_ngn := by
    rw [hprice]
    exact dvd_mul_left 1000 _
  exact ⟨lt_of_lt_of_le hpos hlb, hdvd, hlb, hub, rfl, rfl, rfl, rfl⟩

/-- Witness for `listing_price_bounds`: a one-image sofa window, whose
category row in `PRICE_RANGES` is `(45000, 350000)`. -/
theorem listing_price_bounds_witness :
    0 < (generateListing [sampleImageA] sampleDraws).price_ngn ∧
    (1000 : ℤ) ∣ (generateListing [sampleImageA] sampleDraws).price_ngn ∧
    roundTo1000 ((45000 : ℚ) * (45 / 100)) ≤
      (generateListing [sampleImageA] sampleDraws).price_ngn ∧
    (generateListing [sampleImageA] sampleDraws).price_ngn ≤
      roundTo1000 (350000 : ℚ) ∧
    conditionMultiplier .new = 1 ∧ conditionMultiplier .excellent = 85 / 100 ∧
    conditionMultiplier .good = 65 / 100 ∧
    conditionMultiplier .fair = 45 / 100 :=
  listing_price_bounds [sampleImageA] sampleDraws 45000 350000 (by decide)

/-! ## C9/C10 — grouping and windowing invariants -/

theorem addToGroup_keys_any (acc : List (String × List ImageData))
    (img : ImageData) (c : String) :
    ((acc.map (fun p =>
        if p.1 == img.category then (p.1, p.2 ++ [img]) else p)).any
      (fun p => p.1 == c)) = acc.any (fun p => p.1 == c) := by
  induction acc with
  | nil => rfl
  | cons a t ih =>
    have hhead :
        (if (a.1 == img.category) = true then (a.1, a.2 ++ [img]) else a).1 =
          a.1 := by
      split <;> rfl
    simp only [List.map_cons, List.any_cons, hhead, ih]

theorem groupInv_step (processed : List ImageData)
    (acc : List (String × List ImageData)) (img : ImageData)
    (h1 : ∀ p ∈ acc, p.2 = processed.filter (fun i => i.category == p.1))
    (h2 : ∀ c, acc.any (fun p => p.1 == c) = false →
      processed.filter (fun i => i.category == c) = []) :
    (∀ p ∈ addToGroup acc img,
      p.2 = (processed ++ [img]).filter (fun i => i.category == p.1)) ∧
    (∀ c, (addToGroup acc img).any (fun p => p.1 == c) = false →
      (processed ++ [img]).filter (fun i => i.category == c) = []) := by
  unfold addToGroup
  by_cases hany : acc.any (fun p => p.1 == img.category) = true
  · rw [if_pos hany]
    constructor
    · intro p hp
      obtain ⟨q, hq, rfl⟩ := List.mem_map.mp hp
      by_cases hqk : (q.1 == img.category) = true
      · rw [if_pos hqk]
        have hqk' : img.category == q.1 := beq_iff_eq.mpr (beq_iff_eq.mp hqk).symm
        rw [List.filter_append]
        simp only [List.filter, hqk']
        rw [← h1 q hq]
      · rw [if_neg hqk]
        have hqk' : (img.category == q.1) = false := by
          rw [beq_eq_false_iff_ne]
          intro he
          exact hqk (beq_iff_eq.mpr he.symm)
        rw [List.filter_append]
        simp only [List.filter, hqk']
        rw [List.append_nil]
        exact h1 q hq
    · intro c hc
      rw [addToGroup_keys_any] at hc
      have himg : (img.category == c) = false := by
        rw [beq_eq_false_iff_ne]
        intro he
        rw [← he] at hc
        rw [hc] at hany
        exact absurd hany (by simp)
      rw [List.filter_append, h2 c hc]
      simp only [List.filter, himg, List.append_nil]
  · rw [if_neg hany]
    have hkeys : ∀ p ∈ acc, p.1 ≠ img.category := by
      intro p hp hpe
      exact hany (List.any_eq_true.mpr ⟨p, hp, beq_iff_eq.mpr hpe⟩)
    constructor
    · intro p hp
      rcases List.mem_append.mp hp with hmem | hnew
      · have hne : (img.category == p.1) = false := by
          rw [beq_eq_false_iff_ne]
          intro he
          exact hkeys p hmem he.symm
        rw [List.filter_append]
        simp only [List.filter, hne, List.append_nil]
        exact h1 p hmem
      · rw [List.mem_singleton.mp hnew]
        have hself : (img.category == img.category) = true := beq_iff_eq.mpr rfl
        rw [List.filter_append, h2 img.category (Bool.eq_false_iff.mpr hany)]
        simp only [List.filter, hself, List.nil_append]
    · intro c hc
      rw [List.any_append] at hc
      have hc1 : acc.any (fun p => p.1 == c) = false := by
        cases hacc : acc.any (fun p => p.1 == c) with
        | false => rfl
        | true => rw [hacc] at hc; simp at hc
      have hc2 : (img.category == c) = false := by
        cases hcat : (img.category == c) with
        | false => rfl
        | true => rw [List.any_cons, hcat] at hc; simp at hc
      rw [List.filter_append, h2 c hc1]
      simp only [List.filter, hc2, List.append_nil]

theorem groupFold_invariant (l : List ImageData) :
    ∀ (acc : List (String × List ImageData)) (processed : List ImageData),
      (∀ p ∈ acc, p.2 = processed.filter (fun i => i.category == p.1)) →
      (∀ c, acc.any (fun p => p.1 == c) = false →
        processed.filter (fun i => i.category == c) = []) →
      ∀ p ∈ l.foldl addToGroup acc,
        p.2 = (processed ++ l).filter (fun i => i.category == p.1) := by
  induction l with
  | nil =>
    intro acc processed h1 _ p hp
    simpa using h1 p hp
  | cons x xs ih =>
    intro acc processed h1 h2 p hp
    simp only [List.foldl_cons] at hp
    obtain ⟨g1, g2⟩ := groupInv_step processed acc x h1 h2
    have := ih (addToGroup acc x) (processed ++ [x]) g1 g2 p hp
    simpa [List.append_assoc] using this

theorem groupByCategory_snd (images : List ImageData) :
    ∀ p ∈ groupByCategory images,
      p.2 = images.filter (fun i => i.category == p.1) := by
  intro p hp
  have := groupFold_invariant images [] [] (by simp) (fun c _ => rfl) p hp
  simpa using this

theorem chunkWindowsAux_join :
    ∀ (fuel : Nat) (ds : List Nat) (l : List ImageData),
      l.length ≤ fuel → (chunkWindowsAux ds fuel l).flatten = l := by
  intro fuel
  induction fuel with
  | zero =>
    intro ds l h
    rw [List.eq_nil_of_length_eq_zero (Nat.le_zero.mp h)]
    rfl
  | succ n ih =>
    intro ds l h
    cases l with
    | nil => rfl
    | cons x xs =>
      simp only [chunkWindowsAux, List.flatten_cons]
      have hk : 1 ≤ fakerInt 1 (min 5 (xs.length + 1)) (ds.headD 0) :=
        Nat.le_add_right 1 _
      rw [ih ds.tail _ (by
        simp only [List.length_drop, List.length_cons]
        simp only [List.length_cons] at h
        omega)]
      exact List.take_append_drop _ _

theorem chunkWindows_join (ds : List Nat) (l : List ImageData) :
    (chunkWindows ds l).flatten = l :=
  chunkWindowsAux_join l.length ds l le_rfl

theorem chunkWindowsAux_mem :
    ∀ (fuel : Nat) (ds : List Nat) (l : List ImageData) (w : List ImageData),
      w ∈ chunkWindowsAux ds fuel l →
      w ≠ [] ∧ w.length ≤ 5 ∧ ∀ x ∈ w, x ∈ l := by
  intro fuel
  induction fuel with
  | zero =>
    intro ds l w hw
    cases l <;> simp [chunkWindowsAux] at hw
  | succ n ih =>
    intro ds l w hw
    cases l with
    | nil => simp [chunkWindowsAux] at hw
    | cons x xs =>
      simp only [chunkWindowsAux] at hw
      have hms : min 5 (xs.length + 1) - 1 + 1 = min 5 (xs.length + 1) := by
        omega
      have hmod : (ds.headD 0) % (min 5 (xs.length + 1)) < min 5 (xs.length + 1) :=
        Nat.mod_lt _ (by omega)
      rcases List.mem_cons.mp hw with rfl | hrec
      · refine ⟨?_, ?_, fun y hy => List.take_subset _ _ hy⟩
        · have hk : fakerInt 1 (min 5 (xs.length + 1)) (ds.headD 0) =
              (ds.headD 0) % (min 5 (xs.length + 1)) + 1 := by
            unfold fakerInt
            rw [hms]
            omega
          rw [hk, List.take_succ_cons]
          exact List.cons_ne_nil x _
        · rw [List.length_take]
          have hk5 : fakerInt 1 (min 5 (xs.length + 1)) (ds.headD 0) ≤ 5 := by
            unfold fakerInt
            rw [hms]
            omega
          omega
      · obtain ⟨hne, hlen, hsub⟩ := ih ds.tail _ w hrec
        exact ⟨hne, hlen, fun y hy => List.drop_subset _ _ (hsub y hy)⟩

theorem chunkWindows_mem (ds : List Nat) (l : List ImageData)
    (w : List ImageData) (hw : w ∈ chunkWindows ds l) :
    w ≠ [] ∧ w.length ≤ 5 ∧ ∀ x ∈ w, x ∈ l :=
  chunkWindowsAux_mem l.length ds l w hw

theorem join_map_map (f : ImageData → String) :
    ∀ L : List (List ImageData), (L.map (List.map f)).flatten = L.flatten.map f := by
  intro L
  induction L with
  | nil => rfl
  | cons a t ih =>
    simp only [List.map_cons, List.flatten_cons, List.map_append, ih]

theorem listingsForGroup_images (ds : List Nat) (rcs : Nat → ListingDraws)
    (imgs : List ImageData) :
    (listingsForGroup ds rcs imgs).map Listing.images =
      (chunkWindows ds imgs).map (List.map ImageData.url) := by
  unfold listingsForGroup
  rw [List.map_map]
  have h1 : List.map (Listing.images ∘ fun p => generateListing p.2 (rcs p.1))
        (chunkWindows ds imgs).enum =
      List.map (List.map ImageData.url ∘ Prod.snd) (chunkWindows ds imgs).enum :=
    List.map_congr_left (fun p _ => rfl)
  rw [h1, ← List.map_map, List.enum_map_snd]

/-- **C9.**  For every group `(category, groupImages)` that
`generateAllListings` forms from the catalog, the windows sliced from
the group concatenate back to exactly the sequence of catalog images of
that category — every image lands in exactly one window, in order,
none shared, none from another category — and consequently the
concatenation of the `images` fields of the listings generated for the
group is exactly the url sequence of those images. -/
theorem category_images_partition (images : List ImageData) (ds : List Nat)
    (rcs : Nat → ListingDraws) (p : String × List ImageData)
    (hp : p ∈ groupByCategory images) :
    (chunkWindows ds p.2).flatten = images.filter (fun i => i.category == p.1) ∧
    ((listingsForGroup ds rcs p.2).map Listing.images).flatten =
      (images.filter (fun i => i.category == p.1)).map ImageData.url := by
  have h2 := groupByCategory_snd images p hp
  constructor
  · rw [chunkWindows_join, h2]
  · rw [listingsForGroup_images, join_map_map, chunkWindows_join, h2]

/-- Witness for `category_images_partition`: a one-image catalog whose
single group is `("sofa", [sampleImageA])`. -/
theorem category_images_partition_witness :
    (chunkWindows [0] [sampleImageA]).flatten =
      [sampleImageA].filter (fun i => i.category == "sofa") ∧
    ((listingsForGroup [0] (fun _ => sampleDraws) [sampleImageA]).map
        Listing.images).flatten =
      ([sampleImageA].filter (fun i => i.category == "sofa")).map
        ImageData.url :=
  category_images_partition [sampleImageA] [0] (fun _ => sampleDraws)
    ("sofa", [sampleImageA]) (by decide)

/-- **C10.**  Every window sliced from a category group is non-empty
and holds 1–5 images, all of the group's category, so the `images[0]`
accesses inside `generateListing` are always defined and the generated
listing's `category` equals the shared category of its window. -/
theorem windows_nonempty_same_category (images : List ImageData)
    (ds : List Nat) (p : String × List ImageData) (w : List ImageData)
    (hp : p ∈ groupByCategory images) (hw : w ∈ chunkWindows ds p.2) :
    w ≠ [] ∧ 1 ≤ w.length ∧ w.length ≤ 5 ∧
    (∀ img ∈ w, img.category = p.1) ∧
    ∀ d : ListingDraws, (generateListing w d).category = p.1 := by
  obtain ⟨hne, hlen, hsub⟩ := chunkWindows_mem ds p.2 w hw
  have hcat : ∀ img ∈ w, img.category = p.1 := by
    intro img himg
    have hmem : img ∈ p.2 := hsub img himg
    rw [groupByCategory_snd images p hp] at hmem
    exact beq_iff_eq.mp (List.mem_filter.mp hmem).2
  refine ⟨hne, List.length_pos.mpr hne, hlen, hcat, fun d => ?_⟩
  have hgen : (generateListing w d).category =
      (w.headD undefinedImage).category := rfl
  rw [hgen]
  cases w with
  | nil => exact absurd rfl hne
  | cons y ys => exact hcat y (List.mem_cons_self y ys)

/-- Witness for `windows_nonempty_same_category` at the one-image sofa
group. -/
theorem windows_nonempty_witness :
    ([sampleImageA] : List ImageData) ≠ [] ∧
    1 ≤ ([sampleImageA] : List ImageData).length ∧
    ([sampleImageA] : List ImageData).length ≤ 5 ∧
    (∀ img ∈ ([sampleImageA] : List ImageData), img.category = "sofa") ∧
    ∀ d : ListingDraws, (generateListing [sampleImageA] d).category = "sofa" :=
  windows_nonempty_same_category [sampleImageA] [0] ("sofa", [sampleImageA])
    [sampleImageA] (by decide) (by decide)

end FurniShop
